import Mathlib

/-!
Verification development for the EfficientPyTorch training-orchestration
examples (`examples/classifier_mnist/main.py` and
`examples/classifier_imagenet/main.py`).

The embedding below models, at the source level:
  * the checkpoint record saved by `save_checkpoint` and restored by the
    resume block of `main_worker` (MNIST `main.py` lines 183-201, 282-294;
    ImageNet `main.py` lines 159-166);
  * the file-system effect and the raw operation sequence of
    `save_checkpoint` (a direct `torch.save` to the final name followed,
    when `is_best`, by a `shutil.copyfile` to the best name);
  * the epoch loop of the ImageNet `main_worker` (skip-ahead loop lines
    134-136, training loop lines 137-166) as both a state fold and an
    event trace, and the MNIST loop (lines 267-288) as an event trace;
  * the `validate` function of the MNIST example (lines 297-325) with its
    `extract_inner_data` early-stop branch.

Model and optimizer parameter blobs are opaque external state; they are
embedded as plain lists compared for equality (bit-for-bit).  Python
floats carrying accuracy values are embedded as rationals: the code only
compares and takes maxima of them, which is exact.
-/

/-- Checkpoint record: the dict passed to `save_checkpoint` in both
workers: `{'epoch': epoch + 1, 'arch': args.arch, 'state_dict': ...,
'best_acc1': best_acc1, 'optimizer': ...}`. -/
structure Checkpoint where
  epoch : Nat
  arch : String
  state_dict : List Nat
  best_acc1 : ℚ
  optimizer : List Nat
deriving DecidableEq, Repr

/-- Content found at a path: a fully written pickle (`torch.load`
succeeds) or a truncated/corrupt file (`torch.load` raises). -/
inductive FileContent where
  | full (c : Checkpoint)
  | truncated
deriving DecidableEq, Repr

/-- File system: path to content. -/
abbrev Fs := String → Option FileContent

/-- Filename suffix used by `save_checkpoint` for the latest record. -/
def ckptFile : String := "checkpoint.pth.tar"

/-- Filename suffix used by `save_checkpoint` for the best record. -/
def bestFile : String := "best.pth.tar"

/-- File-system effect of `save_checkpoint(state, is_best, prefix,
filename)` (MNIST `main.py` lines 291-294): `torch.save(state, prefix +
filename)`; then, if `is_best`, `shutil.copyfile(prefix + filename,
prefix + 'best.pth.tar')` (the copy reads the file just written). -/
def save_checkpoint_fs (state : Checkpoint) (is_best : Bool)
    (pfx filename : String) (fs : Fs) : Fs :=
  let fs1 : Fs := fun p =>
    if p = pfx ++ filename then some (FileContent.full state) else fs p
  if is_best then
    fun p => if p = pfx ++ bestFile then fs1 (pfx ++ filename) else fs1 p
  else fs1

/-- Raw file operations, distinguishing calls that stream bytes into the
destination path (`torch.save`, `shutil.copyfile`: a crash mid-call
leaves a truncated file at that path) from an atomic rename. -/
inductive FsOp where
  | directWrite (path : String)
  | directCopy (src dst : String)
  | atomicRename (src dst : String)
deriving DecidableEq, Repr

/-- Operation sequence issued by `save_checkpoint` (MNIST `main.py`
lines 291-294): a direct write to `prefix + filename`, then, when
`is_best`, a direct copy onto `prefix + 'best.pth.tar'`.  No temporary
name and no rename appear in the source. -/
def save_checkpoint_ops (is_best : Bool) (pfx filename : String) : List FsOp :=
  [FsOp.directWrite (pfx ++ filename)]
    ++ (if is_best then [FsOp.directCopy (pfx ++ filename) (pfx ++ bestFile)] else [])

/-- Whether one operation can leave a truncated file visible at `final`
if the process crashes while it runs: true exactly for a direct write or
copy whose destination is `final`. -/
def opLeavesTruncatedAt (final : String) : FsOp → Bool
  | FsOp.directWrite p => p == final
  | FsOp.directCopy _ d => d == final
  | FsOp.atomicRename _ _ => false

/-- Whether a crash at some point of the operation sequence can expose a
truncated file under the name `final`. -/
def truncationVisibleAt (final : String) (ops : List FsOp) : Bool :=
  ops.any (opLeavesTruncatedAt final)

/-- Whether an operation is an atomic rename. -/
def isRenameOp : FsOp → Bool
  | FsOp.atomicRename _ _ => true
  | _ => false

/-- State threaded through the resume block of the MNIST `main_worker`
(lines 183-201): `args.start_epoch`, the global `best_acc1`, the model
and optimizer parameter blobs, whether the "no checkpoint found" notice
was printed, and the path of the weights-only `.pth` file the loaded
branch writes. -/
structure ResumeState where
  start_epoch : Nat
  best_acc1 : ℚ
  model : List Nat
  optimState : List Nat
  notice : Bool
  savedWeights : Option String
deriving DecidableEq, Repr

/-- Resume block of the MNIST `main_worker` (lines 183-201).  `if
args.resume:` is Python string truthiness; `os.path.isfile` failing is
the `none` case (prints the notice and continues); `torch.load` on a
truncated file raises (error value); on success `state_dict` is always
restored, and unless `quant_bias_scale` is set, `start_epoch`,
`best_acc1` and the optimizer state are restored from the record and the
model weights are re-saved to `'{arch}.pth'`. -/
def resumeBlock (resume : String) (fs : Fs) (quant_bias_scale : Bool)
    (arch : String) (r : ResumeState) : Except String ResumeState :=
  if resume == "" then Except.ok r
  else
    match fs resume with
    | none => Except.ok { r with notice := true }
    | some FileContent.truncated => Except.error resume
    | some (FileContent.full ck) =>
      let r1 := { r with model := ck.state_dict }
      if quant_bias_scale then Except.ok r1
      else
        Except.ok { r1 with
          start_epoch := ck.epoch
          best_acc1 := ck.best_acc1
          optimState := ck.optimizer
          savedWeights := some (arch ++ ".pth") }

lemma save_checkpoint_fs_latest (state : Checkpoint) (is_best : Bool)
    (pfx filename : String) (fs : Fs) :
    save_checkpoint_fs state is_best pfx filename fs (pfx ++ filename)
      = some (FileContent.full state) := by
  unfold save_checkpoint_fs
  cases is_best <;> simp

/-- C2: loading the checkpoint just written by `save_checkpoint`
reproduces the saved record's epoch, best metric and both opaque blobs
bit-for-bit (with `quant_bias_scale` off, the branch that restores
state). -/
theorem C2_checkpoint_round_trip (state : Checkpoint) (is_best : Bool)
    (pfx filename : String) (fs : Fs) (arch : String) (r : ResumeState)
    (h : (pfx ++ filename == "") = false) :
    resumeBlock (pfx ++ filename) (save_checkpoint_fs state is_best pfx filename fs)
        false arch r
      = Except.ok { r with
          start_epoch := state.epoch
          best_acc1 := state.best_acc1
          model := state.state_dict
          optimState := state.optimizer
          savedWeights := some (arch ++ ".pth") } := by
  unfold resumeBlock
  rw [h]
  simp only [Bool.false_eq_true, if_false]
  rw [save_checkpoint_fs_latest]

/-- C2 witness: a concrete round trip through `save_checkpoint` and the
resume block. -/
theorem C2_witness :
    resumeBlock ("logger/resnet18_" ++ ckptFile)
        (save_checkpoint_fs ⟨7, "resnet18", [1, 2, 3], 70, [9, 9]⟩ true
          "logger/resnet18_" ckptFile (fun _ => none))
        false "resnet18" ⟨0, 0, [], [], false, none⟩
      = Except.ok ⟨7, 70, [1, 2, 3], [9, 9], false, some "resnet18.pth"⟩ :=
  C2_checkpoint_round_trip ⟨7, "resnet18", [1, 2, 3], 70, [9, 9]⟩ true
    "logger/resnet18_" ckptFile (fun _ => none) "resnet18"
    ⟨0, 0, [], [], false, none⟩ (by decide)

lemma string_append_left_cancel {p a b : String} (h : p ++ a = p ++ b) : a = b := by
  have hd : (p ++ a).data = (p ++ b).data := by rw [h]
  simp only [String.data_append] at hd
  exact String.ext (List.append_cancel_left hd)

/-- C6: a resume attempt whose checkpoint path names no existing file
leaves the run a fresh start (start_epoch stays at its default 0, best
metric stays 0, blobs untouched), prints the non-fatal "no checkpoint
found" notice, and raises no exception (the block returns normally). -/
theorem C6_missing_checkpoint_fresh_start (resume : String) (fs : Fs)
    (quant_bias_scale : Bool) (arch : String) (m o : List Nat)
    (h1 : (resume == "") = false) (h2 : fs resume = none) :
    resumeBlock resume fs quant_bias_scale arch ⟨0, 0, m, o, false, none⟩
      = Except.ok ⟨0, 0, m, o, true, none⟩ := by
  unfold resumeBlock
  rw [h1, h2]
  simp

/-- C6 witness: concrete missing file. -/
theorem C6_witness :
    resumeBlock "runs/ck.pth.tar" (fun _ => none) false "resnet18"
        ⟨0, 0, [3], [4], false, none⟩
      = Except.ok ⟨0, 0, [3], [4], true, none⟩ :=
  C6_missing_checkpoint_fresh_start "runs/ck.pth.tar" (fun _ => none) false
    "resnet18" [3] [4] (by decide) rfl

/-- C7: `save_checkpoint` always makes the latest record hold the saved
state; it writes a best record exactly when `is_best` (when `is_best` is
false the best path's content is untouched), and the best record written
is the same content as the latest record. -/
theorem C7_latest_always_best_iff (state : Checkpoint) (is_best : Bool)
    (pfx filename : String) (fs : Fs) (hfn : filename ≠ bestFile) :
    (save_checkpoint_fs state is_best pfx filename fs (pfx ++ filename)
        = some (FileContent.full state))
    ∧ (is_best = true →
        save_checkpoint_fs state is_best pfx filename fs (pfx ++ bestFile)
          = some (FileContent.full state))
    ∧ (is_best = false →
        save_checkpoint_fs state is_best pfx filename fs (pfx ++ bestFile)
          = fs (pfx ++ bestFile)) := by
  have hne : pfx ++ bestFile ≠ pfx ++ filename := by
    intro h
    exact hfn (string_append_left_cancel h).symm
  refine ⟨save_checkpoint_fs_latest state is_best pfx filename fs, ?_, ?_⟩
  · intro hb
    subst hb
    unfold save_checkpoint_fs
    simp
  · intro hb
    subst hb
    unfold save_checkpoint_fs
    simp [hne]

/-- C7 witness: concrete save with `is_best = true`: both records hold
the saved state. -/
theorem C7_witness :
    (save_checkpoint_fs ⟨2, "a", [5], 10, [6]⟩ true "p/" ckptFile (fun _ => none)
        ("p/" ++ ckptFile) = some (FileContent.full ⟨2, "a", [5], 10, [6]⟩))
    ∧ (true = true →
        save_checkpoint_fs ⟨2, "a", [5], 10, [6]⟩ true "p/" ckptFile (fun _ => none)
          ("p/" ++ bestFile) = some (FileContent.full ⟨2, "a", [5], 10, [6]⟩))
    ∧ (true = false →
        save_checkpoint_fs ⟨2, "a", [5], 10, [6]⟩ true "p/" ckptFile (fun _ => none)
          ("p/" ++ bestFile) = (fun _ => none : Fs) ("p/" ++ bestFile)) :=
  C7_latest_always_best_iff ⟨2, "a", [5], 10, [6]⟩ true "p/" ckptFile
    (fun _ => none) (by decide)

/-- C5 counterexample: a crash during the very first operation of
`save_checkpoint` (the direct `torch.save` to the final latest name) can
leave a truncated file visible under the final checkpoint name, so the
write is not atomic with respect to process crash. -/
theorem C5_counterexample :
    truncationVisibleAt ("logger/resnet18_" ++ ckptFile)
        (save_checkpoint_ops false "logger/resnet18_" ckptFile) = true := by
  decide

/-- C5 amended: `save_checkpoint` streams bytes directly into the final
latest name via `torch.save`, and into the final best name via
`shutil.copyfile`; no rename ever occurs, so a crash mid-write can leave
a partial file under either final name. -/
theorem C5_direct_write_not_atomic (is_best : Bool) (pfx filename : String) :
    (truncationVisibleAt (pfx ++ filename)
        (save_checkpoint_ops is_best pfx filename) = true)
    ∧ (truncationVisibleAt (pfx ++ bestFile)
        (save_checkpoint_ops true pfx filename) = true)
    ∧ ((save_checkpoint_ops is_best pfx filename).all
        (fun op => !(isRenameOp op)) = true) := by
  refine ⟨?_, ?_, ?_⟩
  · unfold truncationVisibleAt save_checkpoint_ops
    simp [opLeavesTruncatedAt]
  · unfold truncationVisibleAt save_checkpoint_ops
    simp [opLeavesTruncatedAt]
  · unfold save_checkpoint_ops
    cases is_best <;> simp [isRenameOp]

/-- Best-update of both workers (MNIST lines 279-280, ImageNet lines
156-157): `is_best = acc1 > best_acc1; best_acc1 = max(acc1, best_acc1)`. -/
def bestUpdate (acc1 best : ℚ) : Bool × ℚ := (decide (acc1 > best), max acc1 best)

/-- Running best metric of a fresh run: the module-level `best_acc1 = 0`
folded through `best_acc1 = max(acc1, best_acc1)` once per epoch, where
`acc e` is the validation accuracy observed at epoch `e`. -/
def bestSeq (acc : Nat → ℚ) : Nat → ℚ
  | 0 => 0
  | n + 1 => max (acc n) (bestSeq acc n)

/-- Record of one `save_checkpoint` invocation in the epoch loop: the
record's `epoch` field (`epoch + 1`), its `best_acc1` field, and the
`is_best` flag passed alongside. -/
structure SaveRec where
  epoch : Nat
  best_acc1 : ℚ
  isBest : Bool
deriving DecidableEq, Repr

/-- Observable state accumulated by the ImageNet `main_worker` epoch
loop: scheduler step counts, the global `best_acc1`, the epochs trained
and validated, and the checkpoint saves issued. -/
structure INState where
  schedSteps : Nat
  dnqSteps : Nat
  best : ℚ
  trained : List Nat
  validated : List Nat
  saves : List SaveRec
deriving DecidableEq, Repr

/-- Initial worker state: fresh schedulers, module-level `best_acc1 = 0`,
nothing trained, validated or saved. -/
def initINState : INState := ⟨0, 0, 0, [], [], []⟩

/-- Body of the ImageNet training loop (ImageNet `main.py` lines 137-166)
for epoch `e`: train, `scheduler.step()`, `dnq_scheduler.step()`,
validate (yielding accuracy `acc e`), update `is_best`/`best_acc1`, and
call `save_checkpoint` only when the writer is non-None. -/
def imagenetEpochBody (writer : Bool) (acc : Nat → ℚ) (s : INState) (e : Nat) :
    INState :=
  let acc1 := acc e
  let p := bestUpdate acc1 s.best
  { schedSteps := s.schedSteps + 1
    dnqSteps := s.dnqSteps + 1
    best := p.2
    trained := s.trained ++ [e]
    validated := s.validated ++ [e]
    saves := s.saves ++ (if writer then [⟨e + 1, p.2, p.1⟩] else []) }

/-- The ImageNet `main_worker` epoch loop run from a fresh start
(`start_epoch = 0`) for `n` epochs. -/
def runImagenet (writer : Bool) (acc : Nat → ℚ) (n : Nat) : INState :=
  (List.range n).foldl (imagenetEpochBody writer acc) initINState

/-- The save record issued at epoch `e` of a fresh run: epoch field
`e + 1`, best field `bestSeq acc (e+1)`, and the strict-comparison
`is_best` flag. -/
def mkSave (acc : Nat → ℚ) (e : Nat) : SaveRec :=
  ⟨e + 1, max (acc e) (bestSeq acc e), decide (acc e > bestSeq acc e)⟩

lemma runImagenet_succ (writer : Bool) (acc : Nat → ℚ) (n : Nat) :
    runImagenet writer acc (n + 1)
      = imagenetEpochBody writer acc (runImagenet writer acc n) n := by
  unfold runImagenet
  rw [List.range_succ, List.foldl_append]
  rfl

lemma runImagenet_spec (writer : Bool) (acc : Nat → ℚ) (n : Nat) :
    (runImagenet writer acc n).best = bestSeq acc n
    ∧ (runImagenet writer acc n).saves
        = (if writer then (List.range n).map (mkSave acc) else [])
    ∧ (runImagenet writer acc n).trained = List.range n
    ∧ (runImagenet writer acc n).validated = List.range n
    ∧ (runImagenet writer acc n).schedSteps = n
    ∧ (runImagenet writer acc n).dnqSteps = n := by
  induction n with
  | zero =>
    cases writer <;> simp [runImagenet, initINState, bestSeq]
  | succ n ih =>
    obtain ⟨hb, hs, ht, hv, hc, hd⟩ := ih
    rw [runImagenet_succ]
    unfold imagenetEpochBody bestUpdate
    cases writer <;>
      simp_all [List.range_succ, bestSeq, mkSave]

lemma bestSeq_mono (acc : Nat → ℚ) {i j : Nat} (h : i ≤ j) :
    bestSeq acc i ≤ bestSeq acc j := by
  induction j, h using Nat.le_induction with
  | base => exact le_refl _
  | succ j _ ih => exact le_trans ih (le_max_right _ _)

/-- Accuracy trace of spec scenario 4: validation yields 70.0 at epoch 0
and 68.0 afterwards. -/
def accScenario : Nat → ℚ := fun k => if k = 0 then 70 else 68

/-- C3: along one run the tracked `best_acc1` is monotone non-decreasing
in the epoch count, and the `best_acc1` fields of the checkpoint saves
flagged `is_best` (the writes that get copied to the best record) form a
non-decreasing sequence. -/
theorem C3_best_monotone (acc : Nat → ℚ) (n m : Nat) (h : n ≤ m) :
    (runImagenet true acc n).best ≤ (runImagenet true acc m).best
    ∧ List.Pairwise (· ≤ ·)
        (((runImagenet true acc m).saves.filter (fun r => r.isBest)).map
          (fun r => r.best_acc1)) := by
  constructor
  · rw [(runImagenet_spec true acc n).1, (runImagenet_spec true acc m).1]
    exact bestSeq_mono acc h
  · rw [(runImagenet_spec true acc m).2.1]
    simp only [if_true]
    have hbase : List.Pairwise (· ≤ ·)
        (((List.range m).map (mkSave acc)).map (fun r => r.best_acc1)) := by
      rw [List.map_map]
      rw [List.pairwise_map]
      refine (List.pairwise_lt_range m).imp ?_
      intro a b hab
      show max (acc a) (bestSeq acc a) ≤ max (acc b) (bestSeq acc b)
      have h1 : max (acc a) (bestSeq acc a) = bestSeq acc (a + 1) := rfl
      have h2 : max (acc b) (bestSeq acc b) = bestSeq acc (b + 1) := rfl
      rw [h1, h2]
      exact bestSeq_mono acc (Nat.succ_le_succ (Nat.le_of_lt hab))
    exact hbase.sublist
      (List.Sublist.map _ (List.filter_sublist _))

/-- C3 witness: with accuracies 70 then 68, the running best is 70 ≤ 70
and the best-flagged saves carry the non-decreasing list [70]. -/
theorem C3_witness :
    (runImagenet true accScenario 1).best ≤ (runImagenet true accScenario 2).best
    ∧ List.Pairwise (· ≤ ·)
        (((runImagenet true accScenario 2).saves.filter (fun r => r.isBest)).map
          (fun r => r.best_acc1)) :=
  C3_best_monotone accScenario 1 2 (by decide)

/-- C4: at every epoch the `is_best` flag passed to `save_checkpoint` is
true iff that epoch's validation accuracy strictly exceeds the previous
best (a tie is not best), and the recorded best metric is the max of the
accuracy and the previous best. -/
theorem C4_is_best_strict (acc : Nat → ℚ) (n e : Nat) (h : e < n) :
    ((runImagenet true acc n).saves[e]?.map (fun r => r.isBest) = some true
      ↔ acc e > bestSeq acc e)
    ∧ ((runImagenet true acc n).saves[e]?.map (fun r => r.best_acc1)
        = some (max (acc e) (bestSeq acc e)))
    ∧ (acc e = bestSeq acc e →
        (runImagenet true acc n).saves[e]?.map (fun r => r.isBest) = some false) := by
  rw [(runImagenet_spec true acc n).2.1]
  simp only [if_true]
  have hget : ((List.range n).map (mkSave acc))[e]? = some (mkSave acc e) := by
    simp [List.getElem?_range, h]
  rw [hget]
  refine ⟨?_, by simp [mkSave], ?_⟩
  · simp [mkSave, decide_eq_true_iff]
  · intro heq
    simp [mkSave, heq]

/-- C4 witness: spec scenario 4 at the second epoch: accuracy 68 after a
best of 70 is not marked best, and the recorded best stays 70 = max 68 70. -/
theorem C4_witness :
    (((runImagenet true accScenario 2).saves[1]?.map (fun r => r.isBest)
        = some true)
      ↔ accScenario 1 > bestSeq accScenario 1)
    ∧ ((runImagenet true accScenario 2).saves[1]?.map (fun r => r.best_acc1)
        = some (max (accScenario 1) (bestSeq accScenario 1)))
    ∧ (accScenario 1 = bestSeq accScenario 1 →
        (runImagenet true accScenario 2).saves[1]?.map (fun r => r.isBest)
          = some false) :=
  C4_is_best_strict accScenario 2 1 (by decide)

/-- C10: in the ImageNet worker, when the metric writer is absent no
`save_checkpoint` call is ever issued, while every epoch is still
trained and validated and the best metric is still updated. -/
theorem C10_no_writer_no_saves (acc : Nat → ℚ) (n : Nat) :
    (runImagenet false acc n).saves = []
    ∧ (runImagenet false acc n).trained = List.range n
    ∧ (runImagenet false acc n).validated = List.range n
    ∧ (runImagenet false acc n).best = bestSeq acc n := by
  obtain ⟨hb, hs, ht, hv, _, _⟩ := runImagenet_spec false acc n
  simp_all

/-- Observable events of a worker run: `train_sampler.set_epoch`, one
training pass over an epoch, `scheduler.step()` (LR schedule),
`dnq_scheduler.step()` (quantization bit-width schedule), one validation
pass, and one `save_checkpoint` call. -/
inductive Ev where
  | setEpochEv (e : Nat)
  | trainEv (e : Nat)
  | schedStep
  | dnqStep
  | validateEv
  | saveEv
deriving DecidableEq, Repr

/-- Whether an event is a training pass. -/
def isTrainEv : Ev → Bool
  | Ev.trainEv _ => true
  | _ => false

/-- Whether an event is an LR-scheduler step. -/
def isSchedStep : Ev → Bool
  | Ev.schedStep => true
  | _ => false

/-- Whether an event is a bit-width-scheduler step. -/
def isDnqStep : Ev → Bool
  | Ev.dnqStep => true
  | _ => false

/-- Whether an event is a validation pass. -/
def isValidateEv : Ev → Bool
  | Ev.validateEv => true
  | _ => false

/-- Whether an event is a checkpoint save. -/
def isSaveEv : Ev → Bool
  | Ev.saveEv => true
  | _ => false

/-- Events of one iteration of the ImageNet training loop (ImageNet
`main.py` lines 137-166): optional `set_epoch` when distributed, train,
`scheduler.step()`, `dnq_scheduler.step()`, validate, and a save only
when the writer is non-None. -/
def imagenetEpochEvents (writer distributed : Bool) (e : Nat) : List Ev :=
  (if distributed then [Ev.setEpochEv e] else [])
    ++ [Ev.trainEv e, Ev.schedStep, Ev.dnqStep, Ev.validateEv]
    ++ (if writer then [Ev.saveEv] else [])

/-- Event trace of the ImageNet `main_worker` after scheduler
construction (ImageNet `main.py` lines 130-166): in evaluate mode a
single validation pass then return; otherwise the skip-ahead loop
`for epoch in range(0, start_epoch): scheduler.step()` followed by the
training loop over `range(start_epoch, epochs)`. -/
def imagenetWorkerEvents (evaluate writer distributed : Bool)
    (start_epoch epochs : Nat) : List Ev :=
  if evaluate then [Ev.validateEv]
  else
    ((List.range start_epoch).map (fun _ => Ev.schedStep))
      ++ (List.range' start_epoch (epochs - start_epoch)).flatMap
          (imagenetEpochEvents writer distributed)

/-- Events of one iteration of the MNIST training loop (MNIST `main.py`
lines 267-288): `scheduler_warmup.step()` at the top, train, validate,
and an unconditional `save_checkpoint`. -/
def mnistEpochEvents (e : Nat) : List Ev :=
  [Ev.schedStep, Ev.trainEv e, Ev.validateEv, Ev.saveEv]

/-- Event trace of the MNIST `main_worker` after scheduler construction
(MNIST `main.py` lines 259-288): in evaluate mode a single validation
pass then return; otherwise the loop over `range(start_epoch, epochs)`
with no skip-ahead. -/
def mnistWorkerEvents (evaluate : Bool) (start_epoch epochs : Nat) : List Ev :=
  if evaluate then [Ev.validateEv]
  else (List.range' start_epoch (epochs - start_epoch)).flatMap mnistEpochEvents

/-- Events preceding the first training pass of a trace. -/
def beforeFirstTrain (l : List Ev) : List Ev :=
  l.takeWhile (fun ev => !(isTrainEv ev))

/-- Epoch index of the first training pass of a trace, if any. -/
def firstTrainEpoch (l : List Ev) : Option Nat :=
  l.findSome? (fun ev => match ev with | Ev.trainEv e => some e | _ => none)

/-- C9: with the evaluate-only flag set, both workers run exactly one
validation pass and return: the trace is a single validation event — no
training pass, no LR- or bit-width-scheduler step, and no checkpoint
save occurs. -/
theorem C9_evaluate_only_short_circuit (writer distributed : Bool) (s n : Nat) :
    imagenetWorkerEvents true writer distributed s n = [Ev.validateEv]
    ∧ mnistWorkerEvents true s n = [Ev.validateEv]
    ∧ (imagenetWorkerEvents true writer distributed s n).countP isValidateEv = 1
    ∧ (imagenetWorkerEvents true writer distributed s n).countP isTrainEv = 0
    ∧ (imagenetWorkerEvents true writer distributed s n).countP isSchedStep = 0
    ∧ (imagenetWorkerEvents true writer distributed s n).countP isDnqStep = 0
    ∧ (imagenetWorkerEvents true writer distributed s n).countP isSaveEv = 0
    ∧ (mnistWorkerEvents true s n).countP isValidateEv = 1
    ∧ (mnistWorkerEvents true s n).countP isTrainEv = 0
    ∧ (mnistWorkerEvents true s n).countP isSchedStep = 0
    ∧ (mnistWorkerEvents true s n).countP isSaveEv = 0 :=
  ⟨rfl, rfl, rfl, rfl, rfl, rfl, rfl, rfl, rfl, rfl, rfl⟩

lemma takeWhile_append_all {α : Type} {p : α → Bool} {l1 l2 : List α}
    (h : ∀ x ∈ l1, p x = true) :
    (l1 ++ l2).takeWhile p = l1 ++ l2.takeWhile p := by
  induction l1 with
  | nil => simp
  | cons a l ih =>
    have ha := h a (by simp)
    simp only [List.cons_append, List.takeWhile_cons, ha, if_true]
    rw [ih (fun x hx => h x (by simp [hx]))]

lemma findSome?_append_none {α β : Type} {f : α → Option β} {l1 l2 : List α}
    (h : ∀ x ∈ l1, f x = none) :
    (l1 ++ l2).findSome? f = l2.findSome? f := by
  induction l1 with
  | nil => simp
  | cons a l ih =>
    have ha := h a (by simp)
    simp only [List.cons_append, List.findSome?_cons, ha]
    exact ih (fun x hx => h x (by simp [hx]))

lemma countP_ffPart_sched (l : List Nat) :
    (l.map (fun _ => Ev.schedStep)).countP isSchedStep = l.length := by
  induction l with
  | nil => rfl
  | cons a l ih =>
    simp only [List.map_cons, List.countP_cons, ih]
    rfl

lemma countP_ffPart_dnq (l : List Nat) :
    (l.map (fun _ => Ev.schedStep)).countP isDnqStep = 0 := by
  induction l with
  | nil => rfl
  | cons a l ih =>
    simp only [List.map_cons, List.countP_cons, ih]
    rfl

/-- C1 counterexample: resume at start_epoch 1 of a 2-epoch ImageNet
run: before the first resumed training epoch the LR schedule has been
advanced once (as a fresh run at epoch 1 would be), but the quantization
bit-width schedule has been advanced zero times, not once — the
skip-ahead loop steps only `scheduler`, never `dnq_scheduler`. -/
theorem C1_counterexample :
    (beforeFirstTrain (imagenetWorkerEvents false true false 1 2)).countP
        isSchedStep = 1
    ∧ (beforeFirstTrain (imagenetWorkerEvents false true false 1 2)).countP
        isDnqStep = 0
    ∧ (beforeFirstTrain (imagenetWorkerEvents false true false 1 2)).countP
        isDnqStep ≠ 1 := by
  decide

/-- C1 amended: on resume with start_epoch `s < n`, the ImageNet worker
advances the LR schedule exactly `s` times before the first resumed
training epoch (matching a fresh run fast-forwarded to epoch `s`), but
advances the bit-width schedule zero times, and the first training epoch
executed is `s`, not 0; the MNIST worker fast-forwards nothing (its
warmup schedule is first stepped once inside the first resumed epoch)
and also first trains epoch `s`. -/
theorem C1_fast_forward_lr_only (writer distributed : Bool) (s n : Nat)
    (h : s < n) :
    (beforeFirstTrain (imagenetWorkerEvents false writer distributed s n)).countP
        isSchedStep = s
    ∧ (beforeFirstTrain (imagenetWorkerEvents false writer distributed s n)).countP
        isDnqStep = 0
    ∧ firstTrainEpoch (imagenetWorkerEvents false writer distributed s n) = some s
    ∧ (beforeFirstTrain (mnistWorkerEvents false s n)).countP isSchedStep = 1
    ∧ firstTrainEpoch (mnistWorkerEvents false s n) = some s := by
  obtain ⟨k, hk⟩ : ∃ k, n - s = k + 1 := ⟨n - s - 1, by omega⟩
  have hrange : List.range' s (n - s) = s :: List.range' (s + 1) k := by
    rw [hk]
    rfl
  have hff : ∀ x ∈ (List.range s).map (fun _ => Ev.schedStep),
      (!(isTrainEv x)) = true := by
    intro x hx
    obtain ⟨a, _, rfl⟩ := List.mem_map.mp hx
    rfl
  have hffn : ∀ x ∈ (List.range s).map (fun _ => Ev.schedStep),
      (fun ev => match ev with | Ev.trainEv e => some e | _ => none) x
        = (none : Option Nat) := by
    intro x hx
    obtain ⟨a, _, rfl⟩ := List.mem_map.mp hx
    rfl
  refine ⟨?_, ?_, ?_, ?_, ?_⟩
  · show ((((List.range s).map (fun _ => Ev.schedStep))
        ++ (List.range' s (n - s)).flatMap
            (imagenetEpochEvents writer distributed)).takeWhile
        (fun ev => !(isTrainEv ev))).countP isSchedStep = s
    rw [takeWhile_append_all hff, hrange, List.flatMap_cons,
      List.countP_append, countP_ffPart_sched, List.length_range]
    unfold imagenetEpochEvents
    cases distributed <;>
      simp [takeWhile_append_all, List.takeWhile_cons, isTrainEv, isSchedStep]
  · show ((((List.range s).map (fun _ => Ev.schedStep))
        ++ (List.range' s (n - s)).flatMap
            (imagenetEpochEvents writer distributed)).takeWhile
        (fun ev => !(isTrainEv ev))).countP isDnqStep = 0
    rw [takeWhile_append_all hff, hrange, List.flatMap_cons,
      List.countP_append, countP_ffPart_dnq]
    unfold imagenetEpochEvents
    cases distributed <;>
      simp [List.takeWhile_cons, isTrainEv, isDnqStep]
  · show (((List.range s).map (fun _ => Ev.schedStep))
        ++ (List.range' s (n - s)).flatMap
            (imagenetEpochEvents writer distributed)).findSome?
        (fun ev => match ev with | Ev.trainEv e => some e | _ => none) = some s
    rw [findSome?_append_none hffn, hrange, List.flatMap_cons]
    unfold imagenetEpochEvents
    cases distributed <;> simp [List.findSome?_cons]
  · show ((((List.range' s (n - s)).flatMap mnistEpochEvents).takeWhile
        (fun ev => !(isTrainEv ev))).countP isSchedStep) = 1
    rw [hrange, List.flatMap_cons]
    simp [mnistEpochEvents, List.takeWhile_cons, isTrainEv, isSchedStep,
      List.countP_cons]
  · show ((List.range' s (n - s)).flatMap mnistEpochEvents).findSome?
        (fun ev => match ev with | Ev.trainEv e => some e | _ => none) = some s
    rw [hrange, List.flatMap_cons]
    simp [mnistEpochEvents, List.findSome?_cons]

/-- C1 witness: resume at epoch 5 of a 10-epoch run. -/
theorem C1_witness :
    (beforeFirstTrain (imagenetWorkerEvents false true false 5 10)).countP
        isSchedStep = 5
    ∧ (beforeFirstTrain (imagenetWorkerEvents false true false 5 10)).countP
        isDnqStep = 0
    ∧ firstTrainEpoch (imagenetWorkerEvents false true false 5 10) = some 5
    ∧ (beforeFirstTrain (mnistWorkerEvents false 5 10)).countP isSchedStep = 1
    ∧ firstTrainEpoch (mnistWorkerEvents false 5 10) = some 5 :=
  C1_fast_forward_lr_only true false 5 10 (by decide)

/-- One validation batch as seen by `validate` (MNIST `main.py` lines
297-325): its size `input.size(0)` and the externally computed per-batch
accuracy and loss. -/
structure Batch where
  size : Nat
  acc1 : ℚ
  loss : ℚ
deriving DecidableEq, Repr

/-- Result of `validate`: the returned `top1.mean`, how many batches the
loop consumed, and whether the `'early stop evaluation'` console notice
was printed. -/
structure ValidateOut where
  metric : ℚ
  processed : Nat
  earlyStopNotice : Bool
deriving DecidableEq, Repr

/-- Loop of `validate` (MNIST `main.py` lines 305-320): per batch the
meters record `losses.add(loss, n)` and `top1.add(acc1 * n, n)`
(`tnt.AverageValueMeter`: running sum and count); with
`extract_inner_data` the loop breaks right after the first batch,
printing the notice. Returns the top-1 sum and count, the number of
batches consumed, and the notice flag. -/
def validateLoop (extract : Bool) (t1sum t1cnt lsum lcnt : ℚ) (k : Nat) :
    List Batch → ℚ × ℚ × Nat × Bool
  | [] => (t1sum, t1cnt, k, false)
  | b :: rest =>
    let lsum2 := lsum + b.loss * (b.size : ℚ)
    let lcnt2 := lcnt + (b.size : ℚ)
    let t1sum2 := t1sum + b.acc1 * (b.size : ℚ)
    let t1cnt2 := t1cnt + (b.size : ℚ)
    if extract then (t1sum2, t1cnt2, k + 1, true)
    else validateLoop extract t1sum2 t1cnt2 lsum2 lcnt2 (k + 1) rest

/-- The `validate` function (MNIST `main.py` lines 297-325): runs the
loop from empty meters and returns `top1.mean` (sum divided by count). -/
def validate (extract : Bool) (batches : List Batch) : ValidateOut :=
  match validateLoop extract 0 0 0 0 0 batches with
  | (s, c, k, m) => ⟨s / c, k, m⟩

/-- How the MNIST training loop consumes `validate` (line 275): the
returned value alone becomes `acc1`, regardless of the early-stop mode. -/
def mnistEpochAcc (extract : Bool) (valset : List Batch) : ℚ :=
  (validate extract valset).metric

/-- First batch of spec scenario: accuracy 100 on a batch of size 1. -/
def batchA : Batch := ⟨1, 100, 0⟩

/-- Second batch of spec scenario: accuracy 0 on a batch of size 1. -/
def batchB : Batch := ⟨1, 0, 0⟩

/-- C8 counterexample: in early-stop mode `validate` returns the
single-batch mean (100) through the same return value an ordinary final
metric uses — identical to a normal validation of just the first batch —
although the representative full-set metric is 50; the caller's
best-metric update consumes it unflagged (`is_best = true`, best becomes
100).  Nothing in the returned value marks it non-representative. -/
theorem C8_counterexample :
    (validate true [batchA, batchB]).metric = 100
    ∧ (validate true [batchA, batchB]).earlyStopNotice = true
    ∧ (validate false [batchA, batchB]).metric = 50
    ∧ (validate true [batchA, batchB]).metric = (validate false [batchA]).metric
    ∧ bestUpdate (validate true [batchA, batchB]).metric 0 = (true, 100) := by
  norm_num [validate, validateLoop, batchA, batchB, bestUpdate]

/-- C8 amended: with extract-inner-data active, `validate` consumes
exactly the first batch, prints the early-stop console notice, and
returns the single-batch weighted mean as its ordinary return value —
the same value a normal validation of only that batch returns, with no
flag attached to the result. -/
theorem C8_early_stop_first_batch (b : Batch) (rest : List Batch) :
    (validate true (b :: rest)).processed = 1
    ∧ (validate true (b :: rest)).earlyStopNotice = true
    ∧ (validate true (b :: rest)).metric = (b.acc1 * (b.size : ℚ)) / (b.size : ℚ)
    ∧ (validate true (b :: rest)).metric = (validate false [b]).metric := by
  refine ⟨rfl, rfl, ?_, ?_⟩ <;>
    simp [validate, validateLoop]
